import Mathlib

/-!
# ArduinoMock

A shallow embedding of `src/ArduinoMock/ArduinoMock.h`: the mock clock and
analog pins, `constrain`, `MockServo`, `MockSerial` and `MockEEPROM`.

`MockSerial` keeps two `std::stringstream` members.  The header only calls
library operations on them (`str()`, `clear()`, `str({})`, `operator<<`,
`operator>>`, `std::getline`), so the embedding starts with a small model of
a default-constructed (`in | out`) string stream: the character buffer, the
get position and the two error flags that these operations can raise.  The
put position is not stored: every write in the header appends, and the only
`str(s)` call passes the empty string, so the put position is always the end
of the buffer.
-/

namespace ArduinoMock

/-! ## The string stream -/

/-- Whitespace of the classic "C" locale, which is what the `skipws` step of a
formatted extraction discards. -/
def isspace (c : Char) : Bool :=
  c == ' ' || c == '\t' || c == '\n' || c == '\x0b' || c == '\x0c' || c == '\r'

/-- State of a `std::stringstream`: `buf` is the whole character sequence
(what `str()` returns), `gpos` the get position, `eofbit` and `failbit` the
error flags (`badbit` is never raised by an in-memory buffer). -/
structure StringStream where
  buf : List Char
  gpos : Nat
  eofbit : Bool
  failbit : Bool
  deriving DecidableEq

namespace StringStream

/-- A default-constructed stream. -/
def empty : StringStream := ⟨[], 0, false, false⟩

/-- Result of `good()`: no error flag is set. -/
def good (ss : StringStream) : Bool := !ss.eofbit && !ss.failbit

/-- Result of `str()`: the whole buffer, whatever the get position is. -/
def str (ss : StringStream) : List Char := ss.buf

/-- The characters not yet extracted (from the get position to the end). -/
def unread (ss : StringStream) : List Char := ss.buf.drop ss.gpos

/-- Effect of `clear()`: resets the error flags and nothing else. -/
def clear (ss : StringStream) : StringStream :=
  { ss with eofbit := false, failbit := false }

/-- Effect of `str({})`: the buffer becomes empty and the positions return to
the start; the error flags are untouched. -/
def strEmpty (ss : StringStream) : StringStream :=
  { ss with buf := [], gpos := 0 }

/-- Effect of `ss << text`: the output sentry refuses when the stream is not
good, otherwise the text is appended at the end of the buffer. -/
def insert (ss : StringStream) (text : List Char) : StringStream :=
  if ss.good then { ss with buf := ss.buf ++ text } else ss

/-- Effect of `ss >> c` for a `char c`.  The input sentry raises `failbit` when
the stream is not good; otherwise it discards leading whitespace, and at the
end of the buffer raises `eofbit` and `failbit`.  The second component is the
character stored into `c`, or `none` when `c` is left untouched. -/
def extractChar (ss : StringStream) : StringStream × Option Char :=
  if ss.good then
    let rest := ss.unread
    let kept := rest.dropWhile isspace
    let gpos := ss.gpos + (rest.length - kept.length)
    match kept with
    | [] => ({ ss with gpos := gpos, eofbit := true, failbit := true }, none)
    | c :: _ => ({ ss with gpos := gpos + 1 }, some c)
  else
    ({ ss with failbit := true }, none)

/-- Effect of `std::getline(ss, resp)` on an initially empty `resp`; the second
component is the final `resp`.  When the stream is not good the sentry raises
`failbit` and `resp` stays empty.  Otherwise characters are moved to `resp` up
to the first newline, which is consumed and not stored; when the end of the
buffer comes first `eofbit` is raised, together with `failbit` when nothing
was extracted. -/
def getline (ss : StringStream) : StringStream × List Char :=
  if ss.good then
    let rest := ss.unread
    let line := rest.takeWhile (fun c => c != '\n')
    if line.length < rest.length then
      ({ ss with gpos := ss.gpos + line.length + 1 }, line)
    else
      ({ ss with gpos := ss.gpos + line.length, eofbit := true,
                 failbit := line.isEmpty }, line)
  else
    ({ ss with failbit := true }, [])

/-- Value of a run of decimal digits. -/
def digitsValue (ds : List Char) : Nat :=
  ds.foldl (fun acc d => 10 * acc + (d.toNat - '0'.toNat)) 0

/-- Effect of `ss >> x` for an `int x` (32 bits, decimal).  After the sentry
(as for `extractChar`) an optional sign and then the longest run of digits are
consumed.  Without a digit the extraction fails and stores 0; a value outside
the range of `int` is stored clamped and also raises `failbit`.  `eofbit` is
raised when the scan stopped at the end of the buffer.  The second component
is the value stored into `x`, or `none` when `x` is left untouched. -/
def extractInt (ss : StringStream) : StringStream × Option Int :=
  if ss.good then
    let rest := ss.unread
    let kept := rest.dropWhile isspace
    let gpos := ss.gpos + (rest.length - kept.length)
    match kept with
    | [] => ({ ss with gpos := gpos, eofbit := true, failbit := true }, none)
    | c :: cs =>
      let signed := c == '-' || c == '+'
      let body := if signed then cs else c :: cs
      let ds := body.takeWhile Char.isDigit
      let used := (if signed then 1 else 0) + ds.length
      let atEnd := decide (used = kept.length)
      let mag : Int := digitsValue ds
      let v : Int := if c == '-' then -mag else mag
      if ds.isEmpty then
        ({ ss with gpos := gpos + used, eofbit := atEnd, failbit := true }, some 0)
      else if v < -2147483648 then
        ({ ss with gpos := gpos + used, eofbit := atEnd, failbit := true },
          some (-2147483648))
      else if 2147483647 < v then
        ({ ss with gpos := gpos + used, eofbit := atEnd, failbit := true },
          some 2147483647)
      else
        ({ ss with gpos := gpos + used, eofbit := atEnd }, some v)
  else
    ({ ss with failbit := true }, none)

end StringStream

/-! ## Values written with `print` / `println` -/

/-- Decimal text of an integer as `operator<<` produces it with the default
format flags: a minus sign for negative numbers, then the digits. -/
def decText (n : Int) : List Char :=
  if n < 0 then '-' :: Nat.toDigits 10 n.natAbs else Nat.toDigits 10 n.natAbs

/-- Representation of an integer in base `b`, written after the spec's words
for the `format` argument ("selects the base"): a minus sign for negative
numbers, then the digits in base `b`.  It is only compared with what the code
writes. -/
def specBaseText (b : Nat) (n : Int) : List Char :=
  if n < 0 then '-' :: Nat.toDigits b n.natAbs else Nat.toDigits b n.natAbs

/-- The argument of the templates `print`, `println` and `writeMock`: the
streamable types the embedding covers are the integer types that are written
as numbers (`int`, `long`, ...), `char` and character strings. -/
inductive Value where
  | int (n : Int)
  | chr (c : Char)
  | str (s : List Char)
  deriving DecidableEq

/-- The characters `stream << value` writes. -/
def Value.text : Value → List Char
  | .int n => decText n
  | .chr c => [c]
  | .str s => s

/-! ## Mock globals: the clock and the analog pins -/

/-- Conversion of an `int` to the `size_t` (64 bits) that `at` and `operator[]`
take as index: negative values wrap around to the top of the range. -/
def toSizeT (i : Int) : Nat := (i % 18446744073709551616).toNat

/-- Largest number of elements a `std::vector<int>` can have (`max_size()` for
a 64-bit `size_t`); no pin table is longer. -/
def vectorMaxSize : Nat := 2305843009213693951

/-- The exception `std::vector::at` throws for an index that is not below
`size()`. -/
inductive Exception where
  | out_of_range
  deriving DecidableEq

/-- The globals of namespace `mock`: `gMicros` is an `unsigned long`,
`gAnalogPins` a `std::vector<int>`. -/
structure Globals where
  gMicros : Nat
  gAnalogPins : List Int
  deriving DecidableEq

/-- Model of `unsigned long micros()`. -/
def micros (g : Globals) : Nat := g.gMicros

/-- Model of `void setMockMicros(const unsigned long value)`. -/
def setMockMicros (g : Globals) (value : Nat) : Globals :=
  { g with gMicros := value }

/-- Model of `void delay(int ms)`, whose body is empty. -/
def delay (g : Globals) (_ms : Int) : Globals := g

/-- Model of `int analogRead(const int pin)`: `gAnalogPins.at(pin)` throws when
the converted index is not below the size. -/
def analogRead (g : Globals) (pin : Int) : Except Exception Int :=
  if h : toSizeT pin < g.gAnalogPins.length then
    .ok (g.gAnalogPins.get ⟨toSizeT pin, h⟩)
  else
    .error .out_of_range

/-- Model of `void setMockAnalogRead(const int pin, const int value)`.  The
first component is the state of the globals after the call: `at` throws before
anything is assigned. -/
def setMockAnalogRead (g : Globals) (pin value : Int) : Globals × Except Exception Unit :=
  if toSizeT pin < g.gAnalogPins.length then
    ({ g with gAnalogPins := g.gAnalogPins.set (toSizeT pin) value }, .ok ())
  else
    (g, .error .out_of_range)

/-- Model of the template `T constrain(const T v, const U min, const U max)`;
`cast` is the conversion `T(x)` of a `U` to `T`. -/
def constrain {T U : Type} [LT T] [DecidableRel (fun a b : T => a < b)]
    (cast : U → T) (v : T) (min max : U) : T :=
  if v < cast min then cast min
  else if v > cast max then cast max
  else v

/-! ## MockServo -/

/-- State of the class `MockServo`. -/
structure MockServo where
  _pin : Int
  _min : Int
  _max : Int
  _angle : Int
  deriving DecidableEq

namespace MockServo

/-- A freshly constructed `MockServo`: every member is initialised to 0. -/
def fresh : MockServo := ⟨0, 0, 0, 0⟩

/-- Model of `void attach(const int pin, const int min, const int max)`. -/
def attach (s : MockServo) (pin min max : Int) : MockServo :=
  { s with _pin := pin, _min := min, _max := max }

/-- Model of `void write(const int angle)`. -/
def write (s : MockServo) (angle : Int) : MockServo :=
  { s with _angle := angle }

/-- Model of `int angle() const`. -/
def angle (s : MockServo) : Int := s._angle

end MockServo

/-! ## MockSerial -/

/-- Conversion of a `size_t` to the `int` that `available()` returns
(two's complement, 32 bits). -/
def sizeToInt (n : Nat) : Int :=
  ((n : Int) + 2147483648) % 4294967296 - 2147483648

/-- What `read()` hands back: a character, or the content of the local
`char value;` that was never assigned, which is indeterminate. -/
inductive ReadValue where
  | byte (c : Char)
  | indeterminate
  deriving DecidableEq

/-- State of the class `MockSerial`.  `_callback` is the function pointer
(`none` is `nullptr`, `some f` the function registered, named by a number).
The body of the registered function is not part of the class; `fired` records
its invocations in order, each with the function called and the outbound
`str()` at the moment of the call. -/
structure MockSerial where
  _dataToArduino : StringStream
  _dataFromArduino : StringStream
  _callback : Option Nat
  fired : List (Nat × List Char)
  deriving DecidableEq

namespace MockSerial

/-- A freshly constructed `MockSerial`. -/
def fresh : MockSerial := ⟨StringStream.empty, StringStream.empty, none, []⟩

/-- The default value of the `format` parameter of `print` and `println`. -/
def defaultFormat : Int := 3

/-- Model of `int available() const`. -/
def available (s : MockSerial) : Int := sizeToInt s._dataToArduino.str.length

/-- Model of `char read()`. -/
def read (s : MockSerial) : MockSerial × ReadValue :=
  if s._dataToArduino.str.isEmpty then
    (s, .byte (Char.ofNat 0))
  else
    match s._dataToArduino.extractChar with
    | (ss, some c) => ({ s with _dataToArduino := ss }, .byte c)
    | (ss, none) => ({ s with _dataToArduino := ss }, .indeterminate)

/-- Model of `void setMockData(const std::string& str)`. -/
def setMockData (s : MockSerial) (str : List Char) : MockSerial :=
  { s with _dataToArduino := s._dataToArduino.clear.insert str }

/-- Model of `void notify() const`. -/
def notify (s : MockSerial) : MockSerial :=
  match s._callback with
  | some f => { s with fired := s.fired ++ [(f, s._dataFromArduino.str)] }
  | none => s

/-- Model of `void println(T value, int format = 3)`. -/
def println (s : MockSerial) (value : Value) (_format : Int) : MockSerial :=
  notify { s with _dataFromArduino := s._dataFromArduino.insert value.text }

/-- Model of `void print(T value, int format = 3)`. -/
def print (s : MockSerial) (value : Value) (_format : Int) : MockSerial :=
  notify { s with _dataFromArduino := s._dataFromArduino.insert value.text }

/-- Model of `void resetMock()`. -/
def resetMock (s : MockSerial) : MockSerial :=
  { s with _dataToArduino := s._dataToArduino.clear,
           _dataFromArduino := s._dataFromArduino.clear.strEmpty }

/-- Model of `void setCallback(void (*callback)())`. -/
def setCallback (s : MockSerial) (callback : Option Nat) : MockSerial :=
  { s with _callback := callback }

/-- Model of `void writeMock(const T& value)`. -/
def writeMock (s : MockSerial) (value : Value) : MockSerial :=
  { s with _dataToArduino := s._dataToArduino.insert value.text }

/-- Model of `void readMock(T& value)` at `T = int`. -/
def readMockInt (s : MockSerial) : MockSerial × Option Int :=
  let r := s._dataFromArduino.extractInt
  ({ s with _dataFromArduino := r.1 }, r.2)

/-- Model of `std::string readMockLine()`. -/
def readMockLine (s : MockSerial) : MockSerial × List Char :=
  let r := s._dataFromArduino.getline
  ({ s with _dataFromArduino := r.1 }, r.2)

/-- The `n` successive `read()` calls of a test: the values returned, in
order, and the final state. -/
def readMany : Nat → MockSerial → MockSerial × List ReadValue
  | 0, s => (s, [])
  | n + 1, s =>
    let r := s.read
    let rs := readMany n r.1
    (rs.1, r.2 :: rs.2)

/-- One call of the firmware's output functions, with its arguments. -/
inductive Call where
  | print (value : Value) (format : Int)
  | println (value : Value) (format : Int)
  deriving DecidableEq

/-- Performs one output call. -/
def Call.run (s : MockSerial) : Call → MockSerial
  | .print value format => s.print value format
  | .println value format => s.println value format

/-- Performs a finite sequence of output calls, first to last. -/
def runCalls (s : MockSerial) (cs : List Call) : MockSerial :=
  cs.foldl Call.run s

/-- Model of `void begin(int baudRate) const`, whose body is empty. -/
def begin (s : MockSerial) (_baudRate : Int) : MockSerial := s

/-- Model of `void end() const`, whose body is empty. -/
def end_ (s : MockSerial) : MockSerial := s

/-- Model of `void flush()`, whose body is empty. -/
def flush (s : MockSerial) : MockSerial := s

/-- One call of a member function of `MockSerial` other than `resetMock`, with
its arguments (`readMock` at `T = int`). -/
inductive Op where
  | begin (baudRate : Int)
  | end_
  | available
  | read
  | setMockData (str : List Char)
  | println (value : Value) (format : Int)
  | print (value : Value) (format : Int)
  | flush
  | setCallback (callback : Option Nat)
  | writeMock (value : Value)
  | readMockInt
  | readMockLine
  deriving DecidableEq

/-- State after one call; the value the call returns is dropped. -/
def Op.run (s : MockSerial) : Op → MockSerial
  | .begin baudRate => s.begin baudRate
  | .end_ => s.end_
  | .available => s
  | .read => s.read.1
  | .setMockData str => s.setMockData str
  | .println value format => s.println value format
  | .print value format => s.print value format
  | .flush => s.flush
  | .setCallback callback => s.setCallback callback
  | .writeMock value => s.writeMock value
  | .readMockInt => s.readMockInt.1
  | .readMockLine => s.readMockLine.1

/-- State after a finite sequence of calls, first to last. -/
def runOps (s : MockSerial) (ops : List Op) : MockSerial :=
  ops.foldl Op.run s

end MockSerial

/-! ## MockEEPROM -/

/-- A `uint8_t`. -/
abbrev Byte := Fin 256

/-- Result of `size()` on a `std::array` of `n` elements. -/
def arraySize {n : Nat} {α : Type} (_ : Fin n → α) : Nat := n

/-- State of the class `MockEEPROM`: the member `std::array<uint8_t, 4096> _mem`. -/
structure MockEEPROM where
  _mem : Fin 4096 → Byte

namespace MockEEPROM

/-- Effect of `_mem.fill(value)`. -/
def fill (_e : MockEEPROM) (value : Byte) : MockEEPROM := ⟨fun _ => value⟩

/-- A freshly constructed `MockEEPROM`: the member initialiser `_mem{}` followed
by the constructor body `_mem.fill(0)`. -/
def fresh : MockEEPROM := (MockEEPROM.mk (fun _ => 0)).fill 0

/-- Model of `uint8_t read(int addr)`.  `_mem[addr]` has no bounds check: an
index outside the array is undefined behaviour, modelled as `none`. -/
def read (e : MockEEPROM) (addr : Int) : Option Byte :=
  if h : toSizeT addr < 4096 then some (e._mem ⟨toSizeT addr, h⟩) else none

/-- Model of `void write(int addr, uint8_t value)`; `none` is undefined
behaviour, as for `read`. -/
def write (e : MockEEPROM) (addr : Int) (value : Byte) : Option MockEEPROM :=
  if h : toSizeT addr < 4096 then
    some ⟨Function.update e._mem ⟨toSizeT addr, h⟩ value⟩
  else
    none

/-- Model of `void update(int addr, uint8_t value)`. -/
def update (e : MockEEPROM) (addr : Int) (value : Byte) : Option MockEEPROM :=
  e.write addr value

/-- Model of `void put(int addr, T value)` for a trivially copyable `T` without
padding, a value of which is given by the `sizeof(T)` bytes of its object
representation: the assignment through `reinterpret_cast<T&>(_mem[addr])`
stores these bytes at `addr`, `addr + 1`, ...  It is undefined behaviour
(`none`) when `_mem[addr]` or the end of the object lies outside the array. -/
def put (e : MockEEPROM) (addr : Int) (value : List Byte) : Option MockEEPROM :=
  if toSizeT addr < 4096 ∧ toSizeT addr + value.length ≤ 4096 then
    some ⟨fun i =>
      if h : toSizeT addr ≤ i.val ∧ i.val < toSizeT addr + value.length then
        value.get ⟨i.val - toSizeT addr, by omega⟩
      else
        e._mem i⟩
  else
    none

/-- Model of `void get(int addr, T& value)` for a `T` of `size` bytes: the
second component of the source's call is the new content of `value`, read from
`addr`, `addr + 1`, ...; `none` is undefined behaviour, as for `put`. -/
def get (e : MockEEPROM) (addr : Int) (size : Nat) : Option (List Byte) :=
  if h : toSizeT addr < 4096 ∧ toSizeT addr + size ≤ 4096 then
    some (List.ofFn (fun k : Fin size => e._mem ⟨toSizeT addr + k.val, by omega⟩))
  else
    none

/-- Model of `constexpr unsigned int length() const`. -/
def length (e : MockEEPROM) : Nat := arraySize e._mem % 4294967296

end MockEEPROM

namespace MockSerial

/-! ## Inbound stream: `setMockData`, `available`, `read` -/

/-- C1, evaluated at the failing inputs.  On a fresh mock, after
`setMockData("42\n")` three `read()` calls return '4', '2' and then the
unassigned local instead of the newline; after `setMockData(" a")` the first
`read()` already returns 'a' instead of the space. -/
theorem read_drops_whitespace_bytes :
    ((fresh.setMockData ['4', '2', '\n']).readMany 3).2
        = [.byte '4', .byte '2', .indeterminate] ∧
      ((fresh.setMockData [' ', 'a']).readMany 2).2
        = [.byte 'a', .indeterminate] := by
  decide

/-- C2, evaluated at the failing input.  On a fresh mock `available()` is 2
right after `setMockData("ab")`, and it is still 2 after one `read()` and after
two: it does not decrease. -/
theorem available_not_decreased_by_read :
    (fresh.setMockData ['a', 'b']).available = 2 ∧
      ((fresh.setMockData ['a', 'b']).readMany 1).1.available = 2 ∧
      ((fresh.setMockData ['a', 'b']).readMany 2).1.available = 2 := by
  decide

/-- C3, evaluated at the failing input.  With "a" still unread, `setMockData("b")`
leaves `available()` at 2 and the next two `read()` calls return 'a' and then
'b': the earlier byte is kept and the new one is appended after it. -/
theorem setMockData_keeps_unread_bytes :
    ((fresh.setMockData ['a']).setMockData ['b']).available = 2 ∧
      (((fresh.setMockData ['a']).setMockData ['b']).readMany 2).2
        = [.byte 'a', .byte 'b'] := by
  decide

/-- C4, evaluated at the failing input.  `read()` on a fresh mock returns the
zero byte and changes nothing, but after `setMockData("a")` and one `read()`
the second `read()` returns the unassigned local, not the zero byte, and
raises the error flags of the inbound stream. -/
theorem read_after_last_byte_indeterminate :
    fresh.read = (fresh, .byte (Char.ofNat 0)) ∧
      ((fresh.setMockData ['a']).readMany 2).2 = [.byte 'a', .indeterminate] ∧
      ((fresh.setMockData ['a']).readMany 2).1._dataToArduino.good = false := by
  decide

/-- C7, evaluated at the failing input.  After `setMockData("a")`, `resetMock()`
leaves `available()` at 1 (the inbound buffer is kept), while `readMockLine()`
returns the empty string. -/
theorem resetMock_keeps_inbound_buffer :
    ((fresh.setMockData ['a']).resetMock).available = 1 ∧
      ((fresh.setMockData ['a']).resetMock.readMockLine).2 = [] := by
  decide

/-- Extracting a character never changes the buffer. -/
theorem StringStream.extractChar_buf (ss : StringStream) :
    ss.extractChar.1.buf = ss.buf := by
  unfold StringStream.extractChar
  split_ifs
  · dsimp only
    split <;> rfl
  · rfl

/-- Calling `read()` never changes what `available()` returns: the count is taken from
the whole buffer, which no extraction shortens. -/
theorem available_read (s : MockSerial) : s.read.1.available = s.available := by
  have hb := StringStream.extractChar_buf s._dataToArduino
  unfold read
  split_ifs
  · rfl
  · split <;>
      (rename_i heq
       rw [heq] at hb
       simp only [available, StringStream.str]
       rw [hb])

/-- Calling `setMockData(S)` on a stream that holds `b` leaves `b ++ S`: clearing the
flags makes the stream good, and the write appends. -/
theorem setMockData_str (s : MockSerial) (S : List Char) :
    (s.setMockData S)._dataToArduino.str = s._dataToArduino.str ++ S := by
  simp [setMockData, StringStream.insert, StringStream.clear, StringStream.good,
    StringStream.str]

/-- Calling `resetMock()` never changes what `available()` returns. -/
theorem available_resetMock (s : MockSerial) : s.resetMock.available = s.available :=
  rfl

/-! ## Outbound stream: `print`, `println` and the callback -/

/-- C5, counterexample.  On a fresh mock `println(100)` leaves exactly "100" in
the outbound stream: the same content as after `print(100)`, which is neither
that content followed by "\n" nor by "\r\n". -/
theorem println_adds_no_terminator :
    (fresh.println (.int 100) defaultFormat)._dataFromArduino.str = ['1', '0', '0'] ∧
      (fresh.println (.int 100) defaultFormat)._dataFromArduino.str
        ≠ (fresh.print (.int 100) defaultFormat)._dataFromArduino.str ++ ['\n'] ∧
      (fresh.println (.int 100) defaultFormat)._dataFromArduino.str
        ≠ (fresh.print (.int 100) defaultFormat)._dataFromArduino.str ++ ['\r', '\n'] := by
  decide

/-- C5, amended.  `println(v)` has exactly the effect of `print(v)`.  When the
outbound stream is in a good state both append exactly the text of `v`, with
no line terminator; when an error flag is set both leave the content as it
is. -/
theorem print_println_append_text (s : MockSerial) (v : Value) (format : Int) :
    s.println v format = s.print v format ∧
      (s._dataFromArduino.good = true →
        (s.print v format)._dataFromArduino.str = s._dataFromArduino.str ++ v.text) ∧
      (s._dataFromArduino.good = false →
        (s.print v format)._dataFromArduino.str = s._dataFromArduino.str) := by
  refine ⟨rfl, ?_, ?_⟩
  · intro hg
    cases hc : s._callback <;>
      simp [print, notify, StringStream.insert, StringStream.str, hg, hc]
  · intro hg
    cases hc : s._callback <;>
      simp [print, notify, StringStream.insert, StringStream.str, hg, hc]

/-- C5, amended, at a concrete state: after `print("ab")` on a fresh mock,
`print(7)` leaves "ab7". -/
theorem print_println_append_text_witness :
    ((fresh.print (.str ['a', 'b']) defaultFormat).print (.int 7)
        defaultFormat)._dataFromArduino.str = ['a', 'b', '7'] :=
  ((print_println_append_text (fresh.print (.str ['a', 'b']) defaultFormat) (.int 7)
    defaultFormat).2.1 (by decide)).trans (by decide)

/-- One output call with a callback registered adds exactly one invocation, made
with the outbound content as that call left it, and keeps the registration. -/
theorem run_call_fired (s : MockSerial) (f : Nat) (h : s._callback = some f) (c : Call) :
    (c.run s).fired = s.fired ++ [(f, (c.run s)._dataFromArduino.str)] ∧
      (c.run s)._callback = some f := by
  cases c <;> simp [Call.run, print, println, notify, h]

/-- C6.  With a callback `f` registered, a sequence of `print`/`println` calls
adds one invocation of `f` per call, in order; the invocation of call number
`i` sees the outbound content as it is after the first `i + 1` calls, that is
after that call's own append.  So `n` calls produce exactly `n` invocations,
and the registration is kept. -/
theorem callback_fires_once_per_call (s : MockSerial) (f : Nat)
    (h : s._callback = some f) (cs : List Call) :
    (runCalls s cs).fired
        = s.fired ++ (List.range cs.length).map
            (fun i => (f, (runCalls s (cs.take (i + 1)))._dataFromArduino.str)) ∧
      (runCalls s cs).fired.length = s.fired.length + cs.length ∧
      (runCalls s cs)._callback = some f := by
  induction cs generalizing s with
  | nil => simp [runCalls, h]
  | cons c cs ih =>
    obtain ⟨hf, hc⟩ := run_call_fired s f h c
    obtain ⟨h1, h2, h3⟩ := ih (c.run s) hc
    have e : runCalls s (c :: cs) = runCalls (c.run s) cs := rfl
    refine ⟨?_, ?_, ?_⟩
    · rw [e, h1, hf, List.length_cons, List.range_succ_eq_map, List.map_cons,
        List.map_map, List.append_assoc]
      rfl
    · rw [e, h2, hf]
      simp
      omega
    · rw [e, h3]

/-- C6 at a concrete state: with callback 7 registered on a fresh mock,
`print(1)` then `println(2)` produce exactly two invocations, the first seeing
"1" and the second "12". -/
theorem callback_fires_once_per_call_witness :
    (runCalls (fresh.setCallback (some 7))
        [.print (.int 1) defaultFormat, .println (.int 2) defaultFormat]).fired
      = [(7, ['1']), (7, ['1', '2'])] :=
  ((callback_fires_once_per_call (fresh.setCallback (some 7)) 7 rfl
    [.print (.int 1) defaultFormat, .println (.int 2) defaultFormat]).1).trans (by decide)

/-! ## Outbound stream: `readMockLine` -/

/-- Taking characters up to the first newline of `l ++ "\n" ++ r` gives `l`
when `l` has no newline. -/
theorem takeWhile_upto_newline (l r : List Char) (h : '\n' ∉ l) :
    (l ++ '\n' :: r).takeWhile (fun c => c != '\n') = l := by
  induction l with
  | nil => simp
  | cons a l ih =>
    simp only [List.mem_cons, not_or] at h
    have ha : (a != '\n') = true := by simpa [bne_iff_ne] using fun e => h.1 e.symm
    simp [List.takeWhile_cons, ha, ih h.2]

/-- Taking characters up to the first newline of a text without newline gives
the whole text. -/
theorem takeWhile_without_newline (u : List Char) (h : '\n' ∉ u) :
    u.takeWhile (fun c => c != '\n') = u := by
  induction u with
  | nil => simp
  | cons a u ih =>
    simp only [List.mem_cons, not_or] at h
    have ha : (a != '\n') = true := by simpa [bne_iff_ne] using fun e => h.1 e.symm
    simp [List.takeWhile_cons, ha, ih h.2]

/-- Reading a line from a good stream whose unread part is `l ++ "\n" ++ r`, `l` without
newline: the line is `l`, the unread part becomes `r`, the flags stay clear. -/
theorem StringStream.getline_line (ss : StringStream) (hg : ss.good = true)
    (l r : List Char) (hu : ss.unread = l ++ '\n' :: r) (hl : '\n' ∉ l) :
    ss.getline.2 = l ∧ ss.getline.1.unread = r ∧ ss.getline.1.good = true := by
  have hu2 : List.drop ss.gpos ss.buf = l ++ '\n' :: r := hu
  have hd : List.drop (ss.gpos + l.length + 1) ss.buf = r := by
    rw [Nat.add_assoc, ← List.drop_drop, hu2]
    simp
  have e : ss.getline = ({ ss with gpos := ss.gpos + l.length + 1 }, l) := by
    unfold StringStream.getline
    simp only [hg, if_true, hu, takeWhile_upto_newline l r hl]
    simp
  rw [e]
  exact ⟨rfl, hd, hg⟩

/-- Reading a line from a good stream whose unread part has no newline: the line is the
whole unread part, nothing is left unread, and `eofbit` is raised. -/
theorem StringStream.getline_rest (ss : StringStream) (hg : ss.good = true)
    (hu : '\n' ∉ ss.unread) :
    ss.getline.2 = ss.unread ∧ ss.getline.1.unread = [] ∧ ss.getline.1.eofbit = true := by
  have hd : List.drop (ss.gpos + ss.unread.length) ss.buf = [] := by
    rw [← List.drop_drop]
    exact List.drop_length _
  simp [StringStream.getline, hg, takeWhile_without_newline _ hu]
  simpa [StringStream.unread] using hd

/-- Reading a line from a stream with an error flag set: nothing is returned and
nothing is consumed. -/
theorem StringStream.getline_not_good (ss : StringStream) (hg : ss.good = false) :
    ss.getline.2 = [] ∧ ss.getline.1.unread = ss.unread := by
  simp [StringStream.getline, hg, StringStream.unread]

/-- C8, counterexample.  After `print("abc")` and a `readMock` into an `int`
(which fails without consuming anything) the unread outbound content is "abc",
with no line terminator; `readMockLine()` returns the empty string instead of
"abc" and leaves "abc" unread. -/
theorem readMockLine_after_failed_readMock :
    ((fresh.print (.str ['a', 'b', 'c']) defaultFormat).readMockInt).1._dataFromArduino.unread
        = ['a', 'b', 'c'] ∧
      (((fresh.print (.str ['a', 'b', 'c']) defaultFormat).readMockInt).1.readMockLine).2
        = [] ∧
      (((fresh.print (.str ['a', 'b', 'c']) defaultFormat).readMockInt).1.readMockLine).1._dataFromArduino.unread
        = ['a', 'b', 'c'] := by
  decide

/-- C8, amended.  Let `u` be the unread content of the outbound stream.  When
the stream is in a good state: if `u = l ++ "\n" ++ r` with no newline in `l`,
`readMockLine()` returns `l` and leaves `r` unread; if `u` has no newline it
returns all of `u` and leaves nothing unread (so the empty string for empty
`u`).  When an error flag is set, `readMockLine()` returns the empty string and
leaves `u` unread. -/
theorem readMockLine_splits_at_newline (s : MockSerial) :
    (s._dataFromArduino.good = true →
        (∀ l r : List Char, s._dataFromArduino.unread = l ++ '\n' :: r → '\n' ∉ l →
          s.readMockLine.2 = l ∧ s.readMockLine.1._dataFromArduino.unread = r) ∧
        ('\n' ∉ s._dataFromArduino.unread →
          s.readMockLine.2 = s._dataFromArduino.unread ∧
            s.readMockLine.1._dataFromArduino.unread = [])) ∧
      (s._dataFromArduino.good = false →
        s.readMockLine.2 = [] ∧
          s.readMockLine.1._dataFromArduino.unread = s._dataFromArduino.unread) := by
  refine ⟨fun hg => ⟨fun l r hu hl => ?_, fun hu => ?_⟩, fun hg => ?_⟩
  · obtain ⟨h1, h2, _⟩ := StringStream.getline_line _ hg l r hu hl
    exact ⟨h1, h2⟩
  · obtain ⟨h1, h2, _⟩ := StringStream.getline_rest _ hg hu
    exact ⟨h1, h2⟩
  · exact StringStream.getline_not_good _ hg

/-- C8, amended, at a concrete state: with "ab\ncd" unread on a good stream,
`readMockLine()` returns "ab" and leaves "cd". -/
theorem readMockLine_splits_at_newline_witness :
    ((fresh.print (.str ['a', 'b', '\n', 'c', 'd']) defaultFormat).readMockLine).2 = ['a', 'b'] ∧
      ((fresh.print (.str ['a', 'b', '\n', 'c', 'd'])
        defaultFormat).readMockLine).1._dataFromArduino.unread = ['c', 'd'] :=
  ((readMockLine_splits_at_newline
    (fresh.print (.str ['a', 'b', '\n', 'c', 'd']) defaultFormat)).1 (by decide)).1
    ['a', 'b'] ['c', 'd'] (by decide) (by decide)

/-! ## Text written for integers -/

/-- No digit character is a newline. -/
theorem digitChar_ne_newline (m : Nat) : Nat.digitChar m ≠ '\n' := by
  by_cases h : m < 16
  · interval_cases m <;> decide
  · obtain ⟨k, rfl⟩ : ∃ k, m = k + 16 := ⟨m - 16, by omega⟩
    have e : Nat.digitChar (k + 16) = '*' := by
      simp [Nat.digitChar]
    rw [e]
    decide

/-- The digit loop adds no newline to its accumulator. -/
theorem toDigitsCore_without_newline (b fuel n : Nat) (acc : List Char)
    (h : '\n' ∉ acc) : '\n' ∉ Nat.toDigitsCore b fuel n acc := by
  induction fuel generalizing n acc with
  | zero => simpa [Nat.toDigitsCore] using h
  | succ fuel ih =>
    have hd : '\n' ∉ Nat.digitChar (n % b) :: acc := by
      simp only [List.mem_cons, not_or]
      exact ⟨fun e => digitChar_ne_newline _ e.symm, h⟩
    simp only [Nat.toDigitsCore]
    split_ifs
    · exact hd
    · exact ih _ _ hd

/-- The decimal text of an integer contains no newline. -/
theorem decText_without_newline (n : Int) : '\n' ∉ decText n := by
  have hd : '\n' ∉ Nat.toDigits 10 n.natAbs :=
    toDigitsCore_without_newline 10 _ _ [] (by simp)
  unfold decText
  split_ifs
  · simp only [List.mem_cons, not_or]
    exact ⟨by decide, hd⟩
  · exact hd

/-- The decimal text is the one of the usual rendering of integers. -/
theorem decText_eq_repr (n : Int) : String.mk (decText n) = toString n := by
  cases n with
  | ofNat m =>
    have : ¬ ((Int.ofNat m) < 0) := by simp
    simp only [decText, this, if_false]
    rfl
  | negSucc m =>
    have : (Int.negSucc m) < 0 := Int.negSucc_lt_zero m
    simp only [decText, this, if_true]
    rfl

/-- Calling `println` with an integer on a mock whose outbound stream is empty and good,
followed by `readMockLine`, returns the decimal text. -/
theorem println_readMockLine_of_empty (s : MockSerial) (n format : Int)
    (h : s._dataFromArduino = StringStream.empty) :
    ((s.println (.int n) format).readMockLine).2 = decText n := by
  have e : (s.println (.int n) format)._dataFromArduino = ⟨decText n, 0, false, false⟩ := by
    cases hc : s._callback <;>
      simp [println, notify, hc, h, StringStream.insert, StringStream.empty,
        StringStream.good, Value.text]
  have hg : (s.println (.int n) format)._dataFromArduino.good = true := by
    rw [e]; rfl
  have hu : (s.println (.int n) format)._dataFromArduino.unread = decText n := by
    rw [e]; rfl
  have := (StringStream.getline_rest _ hg (by rw [hu]; exact decText_without_newline n)).1
  rw [hu] at this
  exact this

/-- C9.  For every integer `n`, `println(n)` followed by `readMockLine()` returns
exactly the decimal text of `n`, both on a freshly constructed mock and on any
mock that has just been reset, whatever its state was before; for `n = 100`
that text is "100". -/
theorem println_then_readMockLine_decimal (s : MockSerial) (n format : Int) :
    ((fresh.println (.int n) format).readMockLine).2 = decText n ∧
      ((s.resetMock.println (.int n) format).readMockLine).2 = decText n ∧
      ((fresh.println (.int 100) defaultFormat).readMockLine).2 = ['1', '0', '0'] :=
  ⟨println_readMockLine_of_empty fresh n format rfl,
    println_readMockLine_of_empty s.resetMock n format rfl,
    by decide⟩

/-! ## The `format` argument -/

/-- C10, counterexample.  On a fresh mock `print(255, 16)` appends "255" and
`print(5, 2)` appends "5", while the representations in base 16 and base 2 are
"ff" and "101". -/
theorem print_base_argument_ignored :
    (fresh.print (.int 255) 16)._dataFromArduino.str = ['2', '5', '5'] ∧
      specBaseText 16 255 = ['f', 'f'] ∧
      (fresh.print (.int 5) 2)._dataFromArduino.str = ['5'] ∧
      specBaseText 2 5 = ['1', '0', '1'] ∧
      (fresh.println (.int 255) 16)._dataFromArduino.str
        ≠ fresh._dataFromArduino.str ++ specBaseText 16 255 := by
  decide

/-- C10, amended.  The `format` argument has no effect: `print(v, b)` and
`println(v, b)` do the same as with any other `b`, in particular as with the
default.  On an outbound stream in a good state both append the decimal
representation of `v`, whatever `b` is. -/
theorem print_format_has_no_effect (s : MockSerial) (v b : Int) :
    s.print (.int v) b = s.print (.int v) defaultFormat ∧
      s.println (.int v) b = s.println (.int v) defaultFormat ∧
      (s._dataFromArduino.good = true →
        (s.print (.int v) b)._dataFromArduino.str = s._dataFromArduino.str ++ decText v ∧
          (s.println (.int v) b)._dataFromArduino.str
            = s._dataFromArduino.str ++ decText v) := by
  refine ⟨rfl, rfl, fun hg => ?_⟩
  cases hc : s._callback <;>
    simp [print, println, notify, StringStream.insert, StringStream.str, hg, hc, Value.text]

/-- C10, amended, at a concrete state: on a fresh mock `print(255, 16)` leaves
the decimal text "255". -/
theorem print_format_has_no_effect_witness :
    (fresh.print (.int 255) 16)._dataFromArduino.str = ['2', '5', '5'] :=
  (((print_format_has_no_effect fresh 255 16).2.2 (by decide)).1).trans (by decide)

/-! ## The end-of-file state of the outbound stream -/

/-- Notifying leaves both streams as they are. -/
theorem notify_dataFromArduino (s : MockSerial) :
    s.notify._dataFromArduino = s._dataFromArduino := by
  unfold notify
  split <;> rfl

/-- Reading a byte leaves the outbound stream as it is. -/
theorem read_dataFromArduino (s : MockSerial) :
    s.read.1._dataFromArduino = s._dataFromArduino := by
  unfold read
  split_ifs
  · rfl
  · split <;> rfl

/-- A stream with `eofbit` set is not good. -/
theorem StringStream.not_good_of_eofbit (ss : StringStream) (h : ss.eofbit = true) :
    ss.good = false := by
  simp [StringStream.good, h]

/-- Once `eofbit` is set on the outbound stream, a call of any member function
other than `resetMock` leaves the outbound buffer and the get position as they
are and `eofbit` set. -/
theorem run_op_keeps_eof (t : MockSerial) (h : t._dataFromArduino.eofbit = true)
    (op : Op) :
    (op.run t)._dataFromArduino.buf = t._dataFromArduino.buf ∧
      (op.run t)._dataFromArduino.gpos = t._dataFromArduino.gpos ∧
      (op.run t)._dataFromArduino.eofbit = true := by
  have hg := StringStream.not_good_of_eofbit _ h
  cases op with
  | begin b => exact ⟨rfl, rfl, h⟩
  | end_ => exact ⟨rfl, rfl, h⟩
  | available => exact ⟨rfl, rfl, h⟩
  | read =>
    show (t.read.1)._dataFromArduino.buf = _ ∧ (t.read.1)._dataFromArduino.gpos = _ ∧
      (t.read.1)._dataFromArduino.eofbit = true
    rw [read_dataFromArduino]
    exact ⟨rfl, rfl, h⟩
  | setMockData str => exact ⟨rfl, rfl, h⟩
  | println v f =>
    show (t.println v f)._dataFromArduino.buf = _ ∧ (t.println v f)._dataFromArduino.gpos = _ ∧
      (t.println v f)._dataFromArduino.eofbit = true
    unfold println
    rw [notify_dataFromArduino]
    simp [StringStream.insert, hg, h]
  | print v f =>
    show (t.print v f)._dataFromArduino.buf = _ ∧ (t.print v f)._dataFromArduino.gpos = _ ∧
      (t.print v f)._dataFromArduino.eofbit = true
    unfold print
    rw [notify_dataFromArduino]
    simp [StringStream.insert, hg, h]
  | flush => exact ⟨rfl, rfl, h⟩
  | setCallback c => exact ⟨rfl, rfl, h⟩
  | writeMock v => exact ⟨rfl, rfl, h⟩
  | readMockInt =>
    simp [Op.run, readMockInt, StringStream.extractInt, hg, h]
  | readMockLine =>
    simp [Op.run, readMockLine, StringStream.getline, hg, h]

/-- Once `eofbit` is set on the outbound stream, a sequence of calls of member
functions other than `resetMock` leaves the outbound buffer and the get
position as they are and `eofbit` set. -/
theorem run_ops_keeps_eof (t : MockSerial) (h : t._dataFromArduino.eofbit = true)
    (ops : List Op) :
    (runOps t ops)._dataFromArduino.buf = t._dataFromArduino.buf ∧
      (runOps t ops)._dataFromArduino.gpos = t._dataFromArduino.gpos ∧
      (runOps t ops)._dataFromArduino.eofbit = true := by
  induction ops generalizing t with
  | nil => exact ⟨rfl, rfl, h⟩
  | cons op ops ih =>
    obtain ⟨h1, h2, h3⟩ := run_op_keeps_eof t h op
    obtain ⟨k1, k2, k3⟩ := ih (op.run t) h3
    exact ⟨k1.trans h1, k2.trans h2, k3⟩

/-- Neither `print` nor `println` writes a line terminator of its own: on a good
outbound stream whose unread part has no newline, printing a value whose text
has no newline (every integer, for one) leaves the stream good and its unread
part without newline, so the next `readMockLine()` reads to the end. -/
theorem print_keeps_unread_without_newline (s : MockSerial) (v : Value) (format : Int)
    (hg : s._dataFromArduino.good = true) (hn : '\n' ∉ s._dataFromArduino.unread)
    (hv : '\n' ∉ v.text) :
    (s.print v format)._dataFromArduino.good = true ∧
      '\n' ∉ (s.print v format)._dataFromArduino.unread ∧
      s.println v format = s.print v format := by
  have e : (s.print v format)._dataFromArduino
      = { s._dataFromArduino with buf := s._dataFromArduino.buf ++ v.text } := by
    unfold print
    rw [notify_dataFromArduino]
    simp [StringStream.insert, hg]
  refine ⟨by rw [e]; exact hg, ?_, rfl⟩
  rw [e]
  intro hm
  have hm2 : '\n' ∈ List.drop s._dataFromArduino.gpos (s._dataFromArduino.buf ++ v.text) := hm
  rw [List.drop_append_eq_append_drop, List.mem_append] at hm2
  rcases hm2 with h | h
  · exact hn h
  · exact hv (List.mem_of_mem_drop h)

/-- C18.  Let `readMockLine()` run on a good outbound stream whose unread part has
no line terminator, so that it reads to the end.  Then, after any further
sequence `ops` of calls other than `resetMock` (in particular any number of
`print`/`println`), the outbound content is still what it was: a `print` or
`println` appends nothing, `readMockLine()` returns the empty string, and a
registered callback is still invoked by `print`/`println`.  After `resetMock()`
a `print` appends again. -/
theorem eof_state_persists_until_reset (s : MockSerial)
    (hg : s._dataFromArduino.good = true) (hn : '\n' ∉ s._dataFromArduino.unread)
    (ops : List Op) (v : Value) (format : Int) :
    (runOps s.readMockLine.1 ops)._dataFromArduino.str = s._dataFromArduino.str ∧
      (runOps s.readMockLine.1 ops)._dataFromArduino.good = false ∧
      ((runOps s.readMockLine.1 ops).print v format)._dataFromArduino.str
        = s._dataFromArduino.str ∧
      ((runOps s.readMockLine.1 ops).println v format)._dataFromArduino.str
        = s._dataFromArduino.str ∧
      ((runOps s.readMockLine.1 ops).readMockLine).2 = [] ∧
      (∀ f, (runOps s.readMockLine.1 ops)._callback = some f →
        ((runOps s.readMockLine.1 ops).println v format).fired
          = (runOps s.readMockLine.1 ops).fired ++ [(f, s._dataFromArduino.str)]) ∧
      ((runOps s.readMockLine.1 ops).resetMock.print v format)._dataFromArduino.str
        = v.text := by
  have he : s.readMockLine.1._dataFromArduino.eofbit = true :=
    (StringStream.getline_rest _ hg hn).2.2
  have hb : s.readMockLine.1._dataFromArduino.buf = s._dataFromArduino.buf := by
    simp [readMockLine, StringStream.getline, hg]
    split_ifs <;> rfl
  obtain ⟨h1, _, h3⟩ := run_ops_keeps_eof _ he ops
  have hng := StringStream.not_good_of_eofbit _ h3
  have hstr : (runOps s.readMockLine.1 ops)._dataFromArduino.str = s._dataFromArduino.str :=
    h1.trans hb
  have hpr : ((runOps s.readMockLine.1 ops).print v format)._dataFromArduino.str
      = s._dataFromArduino.str := by
    unfold print
    rw [notify_dataFromArduino]
    simpa [StringStream.insert, hng] using hstr
  refine ⟨hstr, hng, hpr, hpr, (StringStream.getline_not_good _ hng).1, ?_, ?_⟩
  · intro f hf
    have hs : (runOps s.readMockLine.1 ops)._dataFromArduino.buf = s._dataFromArduino.str :=
      hstr
    simp [println, notify, hf, StringStream.insert, hng, StringStream.str, hs]
  · unfold print
    rw [notify_dataFromArduino]
    simp [resetMock, StringStream.insert, StringStream.clear, StringStream.strEmpty,
      StringStream.good, StringStream.str]

/-- C18 at the concrete run of the claim: on a fresh mock `println(100)` and then
`readMockLine()` return "100"; after a further `println(200)`, `readMockLine()`
returns the empty string. -/
theorem eof_state_persists_until_reset_witness :
    ((fresh.println (.int 100) defaultFormat).readMockLine).2 = ['1', '0', '0'] ∧
      ((runOps (fresh.println (.int 100) defaultFormat).readMockLine.1
        [.println (.int 200) defaultFormat]).readMockLine).2 = [] :=
  ⟨by decide,
    (eof_state_persists_until_reset (fresh.println (.int 100) defaultFormat)
      (by decide) (by decide) [.println (.int 200) defaultFormat] (.int 0) defaultFormat).2.2.2.2.1⟩

end MockSerial

/-! ## The analog pins -/

/-- The index conversion leaves a non-negative `int` as it is. -/
theorem toSizeT_of_nonneg (i : Int) (h0 : 0 ≤ i) (h1 : i < 18446744073709551616) :
    toSizeT i = i.toNat := by
  unfold toSizeT
  rw [Int.emod_eq_of_lt h0 h1]

/-- The index conversion sends a negative `int` to the top of the range. -/
theorem toSizeT_of_neg (i : Int) (h0 : -2147483648 ≤ i) (h1 : i < 0) :
    18446744071562067968 ≤ toSizeT i := by
  unfold toSizeT
  omega

/-- C11.  For every pin table, every pin index `p` (an `int`) with
`0 <= p < size` and every value `v`, `setMockAnalogRead(p, v)` succeeds and a
following `analogRead(p)` returns `v`. -/
theorem analogRead_after_setMockAnalogRead (g : Globals) (p v : Int)
    (h0 : 0 ≤ p) (h1 : p < g.gAnalogPins.length) (hp : p ≤ 2147483647) :
    (setMockAnalogRead g p v).2 = .ok () ∧
      analogRead (setMockAnalogRead g p v).1 p = .ok v := by
  have e : toSizeT p = p.toNat := toSizeT_of_nonneg p h0 (by omega)
  have hlt : p.toNat < g.gAnalogPins.length := by omega
  simp [setMockAnalogRead, analogRead, e, hlt]

/-- C11 at a concrete table: with pins `[1, 2, 3]`, `setMockAnalogRead(1, 9)`
followed by `analogRead(1)` returns 9. -/
theorem analogRead_after_setMockAnalogRead_witness :
    analogRead (setMockAnalogRead ⟨0, [1, 2, 3]⟩ 1 9).1 1 = .ok 9 :=
  (analogRead_after_setMockAnalogRead ⟨0, [1, 2, 3]⟩ 1 9 (by decide) (by decide)
    (by decide)).2

/-- Both pin functions throw exactly when the converted index is not below the
size of the table. -/
theorem analog_error_iff_index (g : Globals) (p v : Int) :
    (analogRead g p = .error .out_of_range ↔ g.gAnalogPins.length ≤ toSizeT p) ∧
      ((setMockAnalogRead g p v).2 = .error .out_of_range
        ↔ g.gAnalogPins.length ≤ toSizeT p) := by
  unfold analogRead setMockAnalogRead
  constructor <;> split_ifs with h <;> simp <;> omega

/-- C12.  For a pin index `p` in the range of `int` and a pin table within the
size a vector can have, `analogRead(p)` and `setMockAnalogRead(p, v)` throw
`out_of_range` if and only if `p < 0` or `p >= size` (so for every `p` when the
table is empty).  When they throw, no value is returned and the globals are
left as they were; when they do not, `analogRead` returns a value. -/
theorem analog_out_of_range_iff (g : Globals) (p v : Int)
    (hp : -2147483648 ≤ p ∧ p ≤ 2147483647)
    (hs : g.gAnalogPins.length ≤ vectorMaxSize) :
    (analogRead g p = .error .out_of_range ↔ (p < 0 ∨ (g.gAnalogPins.length : Int) ≤ p)) ∧
      ((setMockAnalogRead g p v).2 = .error .out_of_range
        ↔ (p < 0 ∨ (g.gAnalogPins.length : Int) ≤ p)) ∧
      ((setMockAnalogRead g p v).2 = .error .out_of_range →
        (setMockAnalogRead g p v).1 = g) ∧
      (¬ (p < 0 ∨ (g.gAnalogPins.length : Int) ≤ p) → ∃ x, analogRead g p = .ok x) ∧
      (g.gAnalogPins = [] → analogRead g p = .error .out_of_range) := by
  have hs2 : g.gAnalogPins.length ≤ 2305843009213693951 := hs
  have key : g.gAnalogPins.length ≤ toSizeT p ↔ (p < 0 ∨ (g.gAnalogPins.length : Int) ≤ p) := by
    by_cases hn : p < 0
    · have := toSizeT_of_neg p hp.1 hn
      constructor
      · intro _; exact Or.inl hn
      · intro _; omega
    · have e : toSizeT p = p.toNat := toSizeT_of_nonneg p (by omega) (by omega)
      rw [e]
      omega
  obtain ⟨h1, h2⟩ := analog_error_iff_index g p v
  refine ⟨h1.trans key, h2.trans key, ?_, ?_, ?_⟩
  · intro he
    have hi := h2.mp he
    simp [setMockAnalogRead, Nat.not_lt.mpr hi]
  · intro hin
    have hi : toSizeT p < g.gAnalogPins.length := by
      rw [← not_le]
      exact fun hle => hin (key.mp hle)
    exact ⟨g.gAnalogPins.get ⟨toSizeT p, hi⟩, by unfold analogRead; rw [dif_pos hi]⟩
  · intro hnil
    exact h1.mpr (by simp [hnil])

/-- C12 at concrete inputs: with pins `[1, 2, 3]`, `analogRead(-1)` and
`analogRead(3)` throw, and a throwing `setMockAnalogRead(3, 9)` leaves the
globals as they were. -/
theorem analog_out_of_range_iff_witness :
    analogRead ⟨0, [1, 2, 3]⟩ (-1) = .error .out_of_range ∧
      analogRead ⟨0, [1, 2, 3]⟩ 3 = .error .out_of_range ∧
      (setMockAnalogRead ⟨0, [1, 2, 3]⟩ 3 9).1 = ⟨0, [1, 2, 3]⟩ :=
  ⟨(analog_out_of_range_iff ⟨0, [1, 2, 3]⟩ (-1) 9 (by decide) (by decide)).1.mpr
      (Or.inl (by decide)),
    (analog_out_of_range_iff ⟨0, [1, 2, 3]⟩ 3 9 (by decide) (by decide)).1.mpr
      (Or.inr (by decide)),
    (analog_out_of_range_iff ⟨0, [1, 2, 3]⟩ 3 9 (by decide) (by decide)).2.2.1 (by rfl)⟩

/-! ## The clock -/

/-- C17.  For every prior state of the clock and every value `v`, larger or
smaller than the prior one, `setMockMicros(v)` followed by `micros()` returns
`v`; `delay(ms)` leaves the clock value, and all globals, unchanged. -/
theorem micros_after_setMockMicros (g : Globals) (v : Nat) (ms : Int) :
    micros (setMockMicros g v) = v ∧
      micros (delay g ms) = micros g ∧
      delay g ms = g ∧
      micros (delay (setMockMicros g v) ms) = v :=
  ⟨rfl, rfl, rfl, rfl⟩

/-! ## `constrain` -/

/-- C19.  For integers `v`, `lo`, `hi` with `lo <= hi`, `constrain(v, lo, hi)`
lies in `[lo, hi]`, equals `v` when `lo <= v <= hi`, `lo` when `v < lo` and `hi`
when `v > hi`, and applying it a second time changes nothing. -/
theorem constrain_clamps (v lo hi : Int) (h : lo ≤ hi) :
    lo ≤ constrain (fun x : Int => x) v lo hi ∧
      constrain (fun x : Int => x) v lo hi ≤ hi ∧
      (lo ≤ v → v ≤ hi → constrain (fun x : Int => x) v lo hi = v) ∧
      (v < lo → constrain (fun x : Int => x) v lo hi = lo) ∧
      (hi < v → constrain (fun x : Int => x) v lo hi = hi) ∧
      constrain (fun x : Int => x) (constrain (fun x : Int => x) v lo hi) lo hi
        = constrain (fun x : Int => x) v lo hi := by
  have e : ∀ w : Int, constrain (fun x : Int => x) w lo hi
      = if w < lo then lo else if hi < w then hi else w := fun _ => rfl
  rw [e (constrain (fun x : Int => x) v lo hi), e v]
  refine ⟨?_, ?_, ?_, ?_, ?_, ?_⟩
  · split_ifs <;> omega
  · split_ifs <;> omega
  · intro h1 h2
    split_ifs <;> omega
  · intro h1
    rw [if_pos h1]
  · intro h1
    split_ifs <;> omega
  · split_ifs <;> omega

/-- C19 at concrete inputs: `constrain(200, 0, 180) = 180`,
`constrain(-5, 0, 180) = 0`, `constrain(90, 0, 180) = 90`. -/
theorem constrain_clamps_witness :
    constrain (fun x : Int => x) 200 0 180 = 180 ∧
      constrain (fun x : Int => x) (-5) 0 180 = 0 ∧
      constrain (fun x : Int => x) 90 0 180 = 90 :=
  ⟨(constrain_clamps 200 0 180 (by decide)).2.2.2.2.1 (by decide),
    (constrain_clamps (-5) 0 180 (by decide)).2.2.2.1 (by decide),
    (constrain_clamps 90 0 180 (by decide)).2.2.1 (by decide) (by decide)⟩

/-! ## MockServo -/

/-- C16.  For every servo state and every angle `a`, whatever range was attached,
`write(a)` followed by `angle()` returns `a` unchanged.  `angle()` on a fresh
servo returns 0, and `attach` never changes what `angle()` returns, so the
value is still 0 after any `attach`. -/
theorem angle_after_write (s : MockServo) (a pin min max : Int) :
    (s.write a).angle = a ∧
      ((s.attach pin min max).write a).angle = a ∧
      MockServo.fresh.angle = 0 ∧
      (MockServo.fresh.attach pin min max).angle = 0 ∧
      (s.attach pin min max).angle = s.angle :=
  ⟨rfl, rfl, rfl, rfl, rfl⟩

/-! ## MockEEPROM -/

namespace MockEEPROM

/-- An address in `[0, 4096)` is its own array index. -/
theorem index_of_addr (a : Int) (h0 : 0 ≤ a) (h1 : a < 4096) :
    toSizeT a = a.toNat ∧ a.toNat < 4096 :=
  ⟨toSizeT_of_nonneg a h0 (by omega), by omega⟩

/-- C13.  For every state of the store, every address `a` in `[0, 4096)` and
every byte `v`, `write(a, v)` followed by `read(a)` returns `v`; `update(a, v)`
has exactly the effect of `write(a, v)`, so the same holds for it. -/
theorem read_after_write (e : MockEEPROM) (a : Int) (v : Byte)
    (h0 : 0 ≤ a) (h1 : a < 4096) :
    (e.write a v).bind (fun e1 => e1.read a) = some v ∧
      (e.update a v).bind (fun e1 => e1.read a) = some v ∧
      e.update a v = e.write a v := by
  obtain ⟨hi, hlt⟩ := index_of_addr a h0 h1
  have hlt2 : toSizeT a < 4096 := by rw [hi]; exact hlt
  have hw : (e.write a v).bind (fun e1 => e1.read a) = some v := by
    simp [write, read, hlt2]
  exact ⟨hw, hw, rfl⟩

/-- C13 at a concrete input: on a fresh store `write(5, 7)` followed by `read(5)`
returns 7. -/
theorem read_after_write_witness :
    (fresh.write 5 7).bind (fun e1 => e1.read 5) = some 7 :=
  (read_after_write fresh 5 7 (by decide) (by decide)).1

/-- C15.  A fresh store reads 0 at every address in `[0, 4096)`, and `length()`
returns 4096 in every state. -/
theorem fresh_zero_and_length (e : MockEEPROM) (a : Int) :
    (0 ≤ a → a < 4096 → fresh.read a = some 0) ∧
      e.length = 4096 ∧ fresh.length = 4096 := by
  refine ⟨fun h0 h1 => ?_, rfl, rfl⟩
  obtain ⟨hi, hlt⟩ := index_of_addr a h0 h1
  have hlt2 : toSizeT a < 4096 := by rw [hi]; exact hlt
  simp [read, hlt2, fresh, fill]

/-- C15 at a concrete address: a fresh store reads 0 at the last address,
4095. -/
theorem fresh_zero_and_length_witness : fresh.read 4095 = some 0 :=
  (fresh_zero_and_length fresh 4095).1 (by decide) (by decide)

/-- The byte that `put` leaves at an index of the array. -/
theorem put_mem (e e1 : MockEEPROM) (a : Int) (x : List Byte) (h : e.put a x = some e1)
    (i : Fin 4096) :
    e1._mem i =
      if h : toSizeT a ≤ i.val ∧ i.val < toSizeT a + x.length then
        x.get ⟨i.val - toSizeT a, by omega⟩
      else
        e._mem i := by
  unfold put at h
  split_ifs at h
  simp only [Option.some.injEq] at h
  rw [← h]

/-- C14.  For every value `x` given by its `n >= 1` bytes, every address `a` with
`0 <= a` and `a + n <= 4096` and every prior content of the store, `put(a, x)`
followed by `get(a, y)` for a `y` of the same type leaves in `y` exactly the
bytes of `x`. -/
theorem get_after_put (e : MockEEPROM) (a : Int) (x : List Byte)
    (h0 : 0 ≤ a) (h1 : a + x.length ≤ 4096) (hx : 0 < x.length) :
    (e.put a x).bind (fun e1 => e1.get a x.length) = some x := by
  obtain ⟨hi, hlt⟩ := index_of_addr a h0 (by omega)
  have hc : toSizeT a < 4096 ∧ toSizeT a + x.length ≤ 4096 := by
    rw [hi]
    omega
  obtain ⟨e1, he1⟩ : ∃ e1, e.put a x = some e1 := by
    unfold put
    rw [if_pos hc]
    exact ⟨_, rfl⟩
  rw [he1]
  simp only [Option.some_bind, get, dif_pos hc, Option.some.injEq]
  apply List.ext_get
  · simp
  · intro k hk1 hk2
    have hin : toSizeT a ≤ toSizeT a + k ∧ toSizeT a + k < toSizeT a + x.length := by
      omega
    simp only [List.get_eq_getElem, List.getElem_ofFn]
    rw [put_mem e e1 a x he1, dif_pos hin]
    simp

/-- C14 at a concrete input: on a fresh store a two-byte value put at the last
admissible address, 4094, is read back unchanged. -/
theorem get_after_put_witness :
    (fresh.put 4094 [171, 205]).bind (fun e1 => e1.get 4094 2) = some [171, 205] :=
  get_after_put fresh 4094 [171, 205] (by decide) (by decide) (by decide)

/-- C20.  Writes touch only the addressed bytes.  For every address `b` in
`[0, 4096)`: `write(a, v)` with `a` in `[0, 4096)` and `a != b` leaves `read(b)`
unchanged; `put(a, x)` for an `x` of `n >= 1` bytes with `0 <= a` and
`a + n <= 4096` leaves `read(b)` unchanged when `b` is outside `[a, a + n)`. -/
theorem write_put_frame (e : MockEEPROM) (a b : Int) (v : Byte) (x : List Byte)
    (hb0 : 0 ≤ b) (hb1 : b < 4096) :
    (0 ≤ a → a < 4096 → b ≠ a →
        (e.write a v).bind (fun e1 => e1.read b) = e.read b) ∧
      (0 ≤ a → a + x.length ≤ 4096 → 0 < x.length → (b < a ∨ a + x.length ≤ b) →
        (e.put a x).bind (fun e1 => e1.read b) = e.read b) := by
  obtain ⟨hbi, hblt⟩ := index_of_addr b hb0 hb1
  have hblt2 : toSizeT b < 4096 := by rw [hbi]; exact hblt
  constructor
  · intro h0 h1 hne
    obtain ⟨hi, hlt⟩ := index_of_addr a h0 h1
    have hlt2 : toSizeT a < 4096 := by rw [hi]; exact hlt
    have hidx : (⟨toSizeT b, hblt2⟩ : Fin 4096) ≠ ⟨toSizeT a, hlt2⟩ := by
      intro heq
      have : toSizeT b = toSizeT a := Fin.mk.inj_iff.mp heq
      rw [hbi, hi] at this
      omega
    simp [write, read, hlt2, hblt2, Function.update_noteq hidx]
  · intro h0 h1 hx hout
    obtain ⟨hi, hlt⟩ := index_of_addr a h0 (by omega)
    have hc : toSizeT a < 4096 ∧ toSizeT a + x.length ≤ 4096 := by
      rw [hi]
      omega
    obtain ⟨e1, he1⟩ : ∃ e1, e.put a x = some e1 := by
      unfold put
      rw [if_pos hc]
      exact ⟨_, rfl⟩
    have hnin : ¬ (toSizeT a ≤ toSizeT b ∧ toSizeT b < toSizeT a + x.length) := by
      rw [hi, hbi]
      omega
    rw [he1]
    simp only [Option.some_bind, read, dif_pos hblt2]
    rw [put_mem e e1 a x he1, dif_neg hnin]

/-- C20 at concrete inputs: on a store holding 9 at address 3, `write(4, 7)` and
`put(4, x)` for a two-byte `x` both leave `read(3)` at 9. -/
theorem write_put_frame_witness :
    ((fresh.write 3 9).bind (fun e => e.write 4 7)).bind (fun e1 => e1.read 3) = some 9 ∧
      ((fresh.write 3 9).bind (fun e => e.put 4 [1, 2])).bind (fun e1 => e1.read 3)
        = some 9 := by
  obtain ⟨e, he, hr⟩ : ∃ e, fresh.write 3 9 = some e ∧ e.read 3 = some 9 := ⟨_, rfl, by decide⟩
  rw [he]
  simp only [Option.some_bind]
  rw [← hr]
  exact ⟨(write_put_frame e 4 3 7 [1, 2] (by decide) (by decide)).1 (by decide) (by decide)
      (by decide),
    (write_put_frame e 4 3 7 [1, 2] (by decide) (by decide)).2 (by decide) (by decide)
      (by decide) (Or.inl (by decide))⟩

end MockEEPROM

end ArduinoMock
